import Mathlib

/-!
Shallow embedding of `src/etl.py`: a two-stage Spark ETL job that reads
song-catalog and event-log JSON files and derives five output tables
(songs, artists, users, time, songplays).  Dataframes are modelled as
Lean lists of record structures, dataframe transformations as list
functions, and write/read calls as explicit descriptor structures.
-/

namespace Etl

/-- Whether a string's final character is the path separator. -/
def lastIsSlash (a : String) : Bool :=
  a.toList.getLast? == some '/'

/-- Two-argument `os.path.join` on POSIX paths, as used throughout
`src/etl.py` (all joined components are non-absolute literals): append a
separator unless one is already present. -/
def pathJoin (a b : String) : String :=
  if lastIsSlash a then a ++ b else a ++ "/" ++ b

/-- Hard-coded input root, `src/etl.py:148`. -/
def inputData : String := "s3a://udacity-dend/"

/-- Hard-coded output root, `src/etl.py:149`. -/
def outputData : String := "s3a://datalake-udacity-haipd4/"

/-- Catalog glob built at `src/etl.py:37`:
`os.path.join(input_data, 'song_data', '*', '*', '*', '*.json')`. -/
def songDataGlob (input : String) : String :=
  pathJoin (pathJoin (pathJoin (pathJoin (pathJoin input "song_data") "*") "*") "*") "*.json"

/-- Log glob built at `src/etl.py:72`:
`os.path.join(input_data, 'log_data', '*', '*', '*.json')`. -/
def logDataGlob (input : String) : String :=
  pathJoin (pathJoin (pathJoin (pathJoin input "log_data") "*") "*") "*.json"

/-- Catalog path re-built for the songplays join at `src/etl.py:111`:
`os.path.join(input_data, 'song_data', '*', '*', '*')` — note: three
wildcard components and no `*.json` component. -/
def songplaysSongGlob (input : String) : String :=
  pathJoin (pathJoin (pathJoin (pathJoin input "song_data") "*") "*") "*"

/-- Which `DataFrameReader` entry point a read uses: the generic
`spark.read.load` or the JSON-specific `spark.read.json`. -/
inductive ReadMethod where
  | load
  | json
  deriving DecidableEq

/-- One read call issued by the pipeline: the reader method and the path
argument. -/
structure ReadCall where
  method : ReadMethod
  path : String
  deriving DecidableEq

/-- Spark's default data-source format (`spark.sql.sources.default`) used
by `DataFrameReader.load` when no format is specified.  The session built
at `src/etl.py:21-24` only sets `spark.jars.packages`, so the default is
in force. -/
def sparkDefaultSourceFormat : String := "parquet"

/-- The catalog-stage read, `src/etl.py:40`: `spark.read.load(song_data)` —
the generic loader, with no format argument. -/
def songStageRead (input : String) : ReadCall :=
  ⟨ReadMethod.load, songDataGlob input⟩

/-- The event-stage log read, `src/etl.py:75`: `spark.read.json(log_data)`. -/
def logStageRead (input : String) : ReadCall :=
  ⟨ReadMethod.json, logDataGlob input⟩

/-- The second, independent catalog read for the songplays join,
`src/etl.py:111`: `spark.read.json(os.path.join(input_data, 'song_data', '*', '*', '*'))`. -/
def songplaysSongRead (input : String) : ReadCall :=
  ⟨ReadMethod.json, songplaysSongGlob input⟩

/-- One song-catalog record (`song_data` JSON object).  `duration` and the
geocoordinates are rationals standing for the JSON doubles; coordinates
are optional because they may be JSON `null`. -/
structure SongRecord where
  song_id : String
  title : String
  artist_id : String
  artist_name : String
  artist_location : String
  artist_latitude : Option ℚ
  artist_longitude : Option ℚ
  year : Int
  duration : ℚ
  deriving DecidableEq

/-- One event-log record (`log_data` JSON object), with the fields the
pipeline touches.  `ts` is the millisecond-epoch timestamp. -/
structure LogRecord where
  userId : String
  firstName : String
  lastName : String
  gender : String
  level : String
  page : String
  ts : Int
  song : String
  artist : String
  length : ℚ
  sessionId : Int
  location : String
  userAgent : String
  deriving DecidableEq

/-- `df.dropDuplicates([k])` keeps one representative row per key; Spark
keeps whichever row it encounters first, which we model as keep-first over
the list order.  The accumulator holds the keys already emitted. -/
def dedupByAux {α β : Type} [DecidableEq β] (key : α → β) (seen : List β) :
    List α → List α
  | [] => []
  | x :: xs =>
    if key x ∈ seen then dedupByAux key seen xs
    else x :: dedupByAux key (key x :: seen) xs

/-- `df.dropDuplicates([k])`: keep the first row for each distinct key. -/
def dedupBy {α β : Type} [DecidableEq β] (key : α → β) (l : List α) : List α :=
  dedupByAux key [] l

/-- A write issued through `DataFrameWriter`: the rows written, the
`partitionBy` columns (empty = unpartitioned), the save mode string, and
the target path. -/
structure TableWrite (ρ : Type) where
  rows : List ρ
  partitionCols : List String
  mode : String
  path : String

/-- Row of the `songs` table: the five columns selected at `src/etl.py:43`. -/
structure SongsRow where
  song_id : String
  title : String
  artist_id : String
  year : Int
  duration : ℚ
  deriving DecidableEq

/-- The projection `df.select(['song_id', 'title', 'artist_id', 'year', 'duration'])`,
`src/etl.py:43`. -/
def songsSelect (r : SongRecord) : SongsRow :=
  ⟨r.song_id, r.title, r.artist_id, r.year, r.duration⟩

/-- `songs_table`, `src/etl.py:43-44`: select the five columns, then
`dropDuplicates(['song_id'])`. -/
def songs_table (df : List SongRecord) : List SongsRow :=
  dedupBy (fun s => s.song_id) (df.map songsSelect)

/-- The `songs` write, `src/etl.py:47-48`: partitioned by `year`, `artist_id`,
overwrite mode, at `<output>/songs`. -/
def songs_write (output : String) (df : List SongRecord) : TableWrite SongsRow :=
  ⟨songs_table df, ["year", "artist_id"], "overwrite", pathJoin output "songs"⟩

/-- The intermediate artists projection selected at `src/etl.py:51`
(original column names, before the renames). -/
structure ArtistsSel where
  artist_id : String
  artist_name : String
  artist_location : String
  artist_latitude : Option ℚ
  artist_longitude : Option ℚ
  deriving DecidableEq

/-- Row of the `artists` table after the four `withColumnRenamed` calls,
`src/etl.py:53-56`. -/
structure ArtistsRow where
  artist_id : String
  name : String
  location : String
  latitude : Option ℚ
  longitude : Option ℚ
  deriving DecidableEq

/-- The projection `df.select(['artist_id', 'artist_name', 'artist_location',
'artist_latitude', 'artist_longitude'])`, `src/etl.py:51`. -/
def artistsSelect (r : SongRecord) : ArtistsSel :=
  ⟨r.artist_id, r.artist_name, r.artist_location, r.artist_latitude, r.artist_longitude⟩

/-- The renames `artist_name→name`, `artist_location→location`,
`artist_latitude→latitude`, `artist_longitude→longitude`, `src/etl.py:53-56`:
values are carried over unchanged. -/
def artistsRename (r : ArtistsSel) : ArtistsRow :=
  ⟨r.artist_id, r.artist_name, r.artist_location, r.artist_latitude, r.artist_longitude⟩

/-- `artists_table`, `src/etl.py:51-56`: select, `dropDuplicates(['artist_id'])`,
then rename. -/
def artists_table (df : List SongRecord) : List ArtistsRow :=
  (dedupBy (fun s => s.artist_id) (df.map artistsSelect)).map artistsRename

/-- The `artists` write, `src/etl.py:60`: unpartitioned, overwrite mode,
at `<output>/artists`. -/
def artists_write (output : String) (df : List SongRecord) : TableWrite ArtistsRow :=
  ⟨artists_table df, [], "overwrite", pathJoin output "artists"⟩

/-- `df.filter(df.page == 'NextSong')`, `src/etl.py:78`. -/
def filterNextSong (df : List LogRecord) : List LogRecord :=
  df.filter fun r => r.page == "NextSong"

/-- The intermediate users projection selected at `src/etl.py:81` (original
column names, before the renames). -/
structure UsersSel where
  userId : String
  firstName : String
  lastName : String
  gender : String
  level : String
  deriving DecidableEq

/-- Row of the `users` table after the three `withColumnRenamed` calls,
`src/etl.py:83-85`. -/
structure UsersRow where
  user_id : String
  first_name : String
  last_name : String
  gender : String
  level : String
  deriving DecidableEq

/-- The projection `df.select(['userId', 'firstName', 'lastName', 'gender', 'level'])`,
`src/etl.py:81`. -/
def usersSelect (r : LogRecord) : UsersSel :=
  ⟨r.userId, r.firstName, r.lastName, r.gender, r.level⟩

/-- The renames `userId→user_id`, `firstName→first_name`, `lastName→last_name`,
`src/etl.py:83-85`: values are carried over unchanged. -/
def usersRename (r : UsersSel) : UsersRow :=
  ⟨r.userId, r.firstName, r.lastName, r.gender, r.level⟩

/-- `users_table`, `src/etl.py:78-85`: filter to NextSong, select, then
`dropDuplicates(['userId'])`, then rename. -/
def users_table (events : List LogRecord) : List UsersRow :=
  (dedupBy (fun s => s.userId) ((filterNextSong events).map usersSelect)).map usersRename

/-- The `users` write, `src/etl.py:89`: unpartitioned, overwrite mode, at
`<output>/users`. -/
def users_write (output : String) (events : List LogRecord) : TableWrite UsersRow :=
  ⟨users_table events, [], "overwrite", pathJoin output "users"⟩

/-- Modelled from the spec: the function `date_convert` that `src/etl.py:92`
wraps in a `udf` (`get_timestamp = udf(date_convert, TimestampType())`) is
referenced but not defined anywhere under `src/`.  Per the spec, the
millisecond-epoch field is divided by 1000 and the result interpreted as
seconds since the epoch; we represent the resulting timestamp as rational
seconds since the epoch. -/
def date_convert (ms : Int) : ℚ := (ms : ℚ) / 1000

/-- `df.withColumn('start_time', get_timestamp(df.ts))`, `src/etl.py:93`:
each filtered event row paired with its derived `start_time`. -/
def eventsWithTime (events : List LogRecord) : List (LogRecord × ℚ) :=
  (filterNextSong events).map fun r => (r, date_convert r.ts)

/-- Whole seconds since the epoch of a timestamp (UTC; the source leaves the
timezone policy implicit, we pin UTC). -/
def tsSeconds (t : ℚ) : Int := ⌊t⌋

/-- Days since 1970-01-01 of an epoch-second count. -/
def epochDays (sec : Int) : Int := sec.fdiv 86400

/-- Second-of-day of an epoch-second count. -/
def secondOfDay (sec : Int) : Int := sec.emod 86400

/-- Proleptic-Gregorian civil date `(year, month, day)` of a count of days
since 1970-01-01 (era-based algorithm). -/
def civilFromDays (z : Int) : Int × Int × Int :=
  let z' := z + 719468
  let era := z'.fdiv 146097
  let doe := z' - era * 146097
  let yoe := (doe - doe / 1460 + doe / 36524 - doe / 146096) / 365
  let y := yoe + era * 400
  let doy := doe - (365 * yoe + yoe / 4 - yoe / 100)
  let mp := (5 * doy + 2) / 153
  let d := doy - (153 * mp + 2) / 5 + 1
  let m := mp + (if mp < 10 then 3 else -9)
  (if m ≤ 2 then y + 1 else y, m, d)

/-- Days since 1970-01-01 of a proleptic-Gregorian civil date (inverse of
`civilFromDays`). -/
def daysFromCivil (y m d : Int) : Int :=
  let y' := y - (if m ≤ 2 then 1 else 0)
  let era := y'.fdiv 400
  let yoe := y' - era * 400
  let doy := (153 * (m + (if m > 2 then -3 else 9)) + 2) / 5 + d - 1
  let doe := yoe * 365 + yoe / 4 - yoe / 100 + doy
  era * 146097 + doe - 719468

/-- `hour(ts)`: hour-of-day component. -/
def hourOf (t : ℚ) : Int := secondOfDay (tsSeconds t) / 3600

/-- `dayofmonth(ts)`: day-of-month component. -/
def dayofmonthOf (t : ℚ) : Int := (civilFromDays (epochDays (tsSeconds t))).2.2

/-- `month(ts)`: month component. -/
def monthOf (t : ℚ) : Int := (civilFromDays (epochDays (tsSeconds t))).2.1

/-- `year(ts)`: year component. -/
def yearOf (t : ℚ) : Int := (civilFromDays (epochDays (tsSeconds t))).1

/-- `dayofweek(ts)`: day-of-week component, 1 = Sunday … 7 = Saturday
(1970-01-01 was a Thursday, day 5). -/
def dayofweekOf (t : ℚ) : Int := (epochDays (tsSeconds t) + 4).emod 7 + 1

/-- ISO weekday, 1 = Monday … 7 = Sunday, of a day count since the epoch. -/
def isoWeekday (z : Int) : Int := (z + 3).emod 7 + 1

/-- Day-of-week index of 31 December of year `y` (0 = Sunday), used by the
ISO week-count rule. -/
def lastDayIndex (y : Int) : Int :=
  (y + y.fdiv 4 - y.fdiv 100 + y.fdiv 400).emod 7

/-- Number of ISO weeks in ISO year `y` (52 or 53). -/
def isoWeeksInYear (y : Int) : Int :=
  if lastDayIndex y = 4 ∨ lastDayIndex (y - 1) = 3 then 53 else 52

/-- `weekofyear(ts)`: ISO-8601 week-of-year component. -/
def weekofyearOf (t : ℚ) : Int :=
  let z := epochDays (tsSeconds t)
  let c := civilFromDays z
  let ord := z - daysFromCivil c.1 1 1 + 1
  let w := (ord - isoWeekday z + 10) / 7
  if w < 1 then isoWeeksInYear (c.1 - 1)
  else if w > isoWeeksInYear c.1 then 1
  else w

/-- Row of the `time` table, `src/etl.py:96-103`. -/
structure TimeRow where
  start_time : ℚ
  hour : Int
  day : Int
  week : Int
  month : Int
  year : Int
  weekday : Int
  deriving DecidableEq

/-- `time_table`, `src/etl.py:96-103`: select `start_time`,
`dropDuplicates(['start_time'])`, then add the six calendar-component
columns.  (As written the source applies `dayofweek`, a name its import
list at `src/etl.py:6` does not bring into scope; the component itself is
modelled here.) -/
def time_table (events : List LogRecord) : List TimeRow :=
  (dedupBy (fun t => t) ((eventsWithTime events).map Prod.snd)).map fun t =>
    ⟨t, hourOf t, dayofmonthOf t, weekofyearOf t, monthOf t, yearOf t, dayofweekOf t⟩

/-- The `time` write, `src/etl.py:107-108`: partitioned by `year`, `month`,
overwrite mode, at `<output>/times`. -/
def time_write (output : String) (events : List LogRecord) : TableWrite TimeRow :=
  ⟨time_table events, ["year", "month"], "overwrite", pathJoin output "times"⟩

/-- Names imported from `pyspark.sql.functions` at `src/etl.py:5-6`. -/
def pysparkFunctionImports : List String :=
  ["udf", "col",
   "year", "month", "dayofmonth", "hour", "weekofyear", "date_format",
   "monotonically_increasing_id"]

/-- Column functions applied when building the `time` table at
`src/etl.py:98-103`, in order. -/
def timeColumnFunctions : List String :=
  ["hour", "dayofmonth", "weekofyear", "month", "year", "dayofweek"]

/-- `monotonically_increasing_id` at `src/etl.py:115` tags each row of the
filtered, time-augmented dataframe with a strictly increasing integer id;
modelled as consecutive ids from a starting value. -/
def withSongplayIdFrom (i : Nat) : List (LogRecord × ℚ) → List (Nat × LogRecord × ℚ)
  | [] => []
  | p :: ps => (i, p.1, p.2) :: withSongplayIdFrom (i + 1) ps

/-- The `events` view registered at `src/etl.py:115-116`: the filtered
dataframe with `start_time` and `songplay_id` columns. -/
def eventsView (events : List LogRecord) : List (Nat × LogRecord × ℚ) :=
  withSongplayIdFrom 0 (eventsWithTime events)

/-- The `WHERE` clause of the songplays query, `src/etl.py:131-134`:
`event.page = 'NextSong' AND event.song = song.title AND
event.artist = song.artist_name AND event.length = song.duration`. -/
def songplaysWhere (e : LogRecord) (s : SongRecord) : Bool :=
  e.page == "NextSong" && e.song == s.title && e.artist == s.artist_name
    && decide (e.length = s.duration)

/-- The same `WHERE` clause with the `event.page` conjunct removed, for
comparison with `songplaysWhere`. -/
def songplaysWhereNoPage (e : LogRecord) (s : SongRecord) : Bool :=
  e.song == s.title && e.artist == s.artist_name && decide (e.length = s.duration)

/-- Row of the `songplays` table: the columns the `SELECT` list at
`src/etl.py:119-129` names. -/
structure SongplaysRow where
  songplay_id : Nat
  start_time : ℚ
  user_id : String
  level : String
  song_id : String
  artist_id : String
  session_id : Int
  location : String
  user_agent : String
  year : Int
  month : Int
  deriving DecidableEq

/-- The projection of the songplays `SELECT` list, `src/etl.py:119-129`,
reading the list as the comma-separated items its layout indicates (the
raw text is transcribed separately in `songplaysSelectText`). -/
def songplaysProject (i : Nat) (e : LogRecord) (t : ℚ) (s : SongRecord) : SongplaysRow :=
  ⟨i, t, e.userId, e.level, s.song_id, s.artist_id, e.sessionId, e.location,
    e.userAgent, yearOf t, monthOf t⟩

/-- `FROM events event, songs song WHERE …`, `src/etl.py:130-134`: the
cross join of the events view with the catalog, filtered by a predicate,
then projected. -/
def joinRows (pred : LogRecord → SongRecord → Bool) (catalog : List SongRecord) :
    List (Nat × LogRecord × ℚ) → List SongplaysRow
  | [] => []
  | p :: ps =>
    ((catalog.filter fun s => pred p.2.1 s).map fun s =>
      songplaysProject p.1 p.2.1 p.2.2 s) ++ joinRows pred catalog ps

/-- `songplays_table`, `src/etl.py:110-135`: the songplays query over the
`events` view and the re-read catalog. -/
def songplays_table (catalog : List SongRecord) (events : List LogRecord) :
    List SongplaysRow :=
  joinRows songplaysWhere catalog (eventsView events)

/-- The `songplays` write, `src/etl.py:138-139`: partitioned by `year`,
`month`, overwrite mode, at `<output>/songplays`. -/
def songplays_write (output : String) (catalog : List SongRecord)
    (events : List LogRecord) : TableWrite SongplaysRow :=
  ⟨songplays_table catalog events, ["year", "month"], "overwrite",
    pathJoin output "songplays"⟩

/-- Verbatim text of the songplays `SELECT` list, `src/etl.py:119-129`:
everything between the `SELECT` keyword and the `FROM` keyword of the SQL
string literal. -/
def songplaysSelectText : String :=
  "  event.songplay_id,\n                    event.start_time, \n                    event.userId as user_id, \n                    event.level, \n                    song.song_id,\n                    song.artist_id, \n                    event.sessionId as session_id,\n                    event.location, \n                    event.userAgent as user_agent\n                    year(event.start_time) as year,\n                    month(event.start_time) as month\n            "

/-- Split a character list at every character satisfying `p`, keeping the
(possibly empty) chunks between separators. -/
def splitWhen (p : Char → Bool) : List Char → List (List Char)
  | [] => [[]]
  | x :: xs =>
    match splitWhen p xs with
    | [] => [[]]
    | h :: t => if p x then [] :: h :: t else (x :: h) :: t

/-- SQL whitespace characters. -/
def isWsChar (c : Char) : Bool :=
  c == ' ' || c == '\n' || c == '\t' || c == '\r'

/-- The whitespace-separated tokens of one `SELECT`-list item. -/
def itemTokens (cs : List Char) : List String :=
  ((splitWhen isWsChar cs).filter fun w => !w.isEmpty).map fun w => String.mk w

/-- The comma-separated items of the songplays `SELECT` list, each as its
token list. -/
def songplaysSelectItems : List (List String) :=
  (splitWhen (fun c => c == ',') songplaysSelectText.toList).map itemTokens

/-- A SQL `SELECT`-list item is a single expression, optionally followed by
`as` and an alias: any longer token sequence does not parse. -/
def isValidSelectItem : List String → Bool
  | [_] => true
  | [_, w, _] => w == "as"
  | _ => false

/-- The whole pipeline as run by `main`, `src/etl.py:142-152`:
`process_song_data` derives `songs`/`artists` from the catalog input,
`process_log_data` derives `users`/`time`/`songplays` from the event input
(plus the re-read catalog). -/
structure PipelineOut where
  songs : List SongsRow
  artists : List ArtistsRow
  users : List UsersRow
  time : List TimeRow
  songplays : List SongplaysRow

/-- Run both stages on given catalog and event inputs. -/
def runPipeline (catalog : List SongRecord) (events : List LogRecord) : PipelineOut :=
  ⟨songs_table catalog, artists_table catalog, users_table events,
    time_table events, songplays_table catalog events⟩

/-- Concrete catalog record used to instantiate the general theorems (the
scenario record of the spec). -/
def demoSong : SongRecord :=
  { song_id := "S1", title := "Test", artist_id := "A1", artist_name := "Art",
    artist_location := "LA", artist_latitude := none, artist_longitude := none,
    year := 2000, duration := 180 }

/-- Concrete catalog input. -/
def demoCatalog : List SongRecord := [demoSong]

/-- Concrete NextSong event record (the scenario record of the spec). -/
def demoNextSong : LogRecord :=
  { userId := "1", firstName := "Jo", lastName := "Doe", gender := "F",
    level := "free", page := "NextSong", ts := 1541903636796, song := "Test",
    artist := "Art", length := 180, sessionId := 5, location := "SF",
    userAgent := "ua" }

/-- Concrete non-NextSong event record. -/
def demoHome : LogRecord :=
  { demoNextSong with page := "Home", ts := 1541903999999 }

/-- Concrete event input containing both records. -/
def demoEvents : List LogRecord := [demoNextSong, demoHome]

/-- Every element of a deduplicated list comes from the original list. -/
theorem mem_of_mem_dedupByAux {α β : Type} [DecidableEq β] (key : α → β) :
    ∀ (seen : List β) (l : List α) (x : α), x ∈ dedupByAux key seen l → x ∈ l := by
  intro seen l
  induction l generalizing seen with
  | nil => intro x h; simp [dedupByAux] at h
  | cons a l ih =>
    intro x h
    by_cases hs : key a ∈ seen
    · simp only [dedupByAux, if_pos hs] at h
      exact List.mem_cons_of_mem a (ih seen x h)
    · simp only [dedupByAux, if_neg hs, List.mem_cons] at h
      rcases h with rfl | h'
      · exact List.mem_cons_self _ _
      · exact List.mem_cons_of_mem a (ih _ x h')

/-- The keys of a deduplicated list are pairwise distinct and avoid the
accumulator. -/
theorem dedupByAux_keys_nodup {α β : Type} [DecidableEq β] (key : α → β) :
    ∀ (l : List α) (seen : List β),
      ((dedupByAux key seen l).map key).Nodup ∧
      ∀ y ∈ dedupByAux key seen l, key y ∉ seen := by
  intro l
  induction l with
  | nil => intro seen; simp [dedupByAux]
  | cons a l ih =>
    intro seen
    by_cases hs : key a ∈ seen
    · simpa [dedupByAux, hs] using ih seen
    · have ih' := ih (key a :: seen)
      constructor
      · simp only [dedupByAux, if_neg hs, List.map_cons, List.nodup_cons]
        refine ⟨?_, ih'.1⟩
        intro hmem
        rcases List.mem_map.mp hmem with ⟨y, hy, hkey⟩
        exact ih'.2 y hy (by simp [hkey])
      · intro y hy
        simp only [dedupByAux, if_neg hs, List.mem_cons] at hy
        rcases hy with rfl | hy
        · exact hs
        · exact fun hseen => ih'.2 y hy (List.mem_cons_of_mem _ hseen)

/-- Every key of the original list survives deduplication (or was already
in the accumulator). -/
theorem key_mem_dedupByAux {α β : Type} [DecidableEq β] (key : α → β) :
    ∀ (l : List α) (seen : List β) (x : α), x ∈ l →
      key x ∈ seen ∨ key x ∈ (dedupByAux key seen l).map key := by
  intro l
  induction l with
  | nil => intro seen x h; cases h
  | cons a l ih =>
    intro seen x hx
    by_cases hs : key a ∈ seen
    · simp only [dedupByAux, if_pos hs]
      rcases List.mem_cons.mp hx with rfl | hx'
      · exact Or.inl hs
      · exact ih seen x hx'
    · simp only [dedupByAux, if_neg hs, List.map_cons]
      rcases List.mem_cons.mp hx with rfl | hx'
      · exact Or.inr (List.mem_cons_self _ _)
      · rcases ih (key a :: seen) x hx' with hmem | hmem
        · rcases List.mem_cons.mp hmem with heq | hseen
          · exact Or.inr (by simp [heq])
          · exact Or.inl hseen
        · exact Or.inr (List.mem_cons_of_mem _ hmem)

/-- `dropDuplicates` only keeps rows of the input. -/
theorem mem_of_mem_dedupBy {α β : Type} [DecidableEq β] (key : α → β)
    (l : List α) (x : α) (h : x ∈ dedupBy key l) : x ∈ l :=
  mem_of_mem_dedupByAux key [] l x h

/-- After `dropDuplicates` the key column has pairwise-distinct values. -/
theorem nodup_keys_dedupBy {α β : Type} [DecidableEq β] (key : α → β)
    (l : List α) : ((dedupBy key l).map key).Nodup :=
  (dedupByAux_keys_nodup key l []).1

/-- `dropDuplicates` keeps at least one row per distinct key of the input. -/
theorem key_mem_dedupBy {α β : Type} [DecidableEq β] (key : α → β)
    (l : List α) (x : α) (h : x ∈ l) : key x ∈ (dedupBy key l).map key := by
  rcases key_mem_dedupByAux key l [] x h with hmem | hmem
  · cases hmem
  · exact hmem

/-- Filtering with pointwise-equal predicates yields the same list. -/
theorem filter_ext_mem {α : Type} (p q : α → Bool) :
    ∀ l : List α, (∀ a ∈ l, p a = q a) → l.filter p = l.filter q := by
  intro l
  induction l with
  | nil => intro _; rfl
  | cons a l ih =>
    intro h
    have ha := h a (List.mem_cons_self a l)
    have ht := ih fun b hb => h b (List.mem_cons_of_mem _ hb)
    simp only [List.filter_cons, ha, ht]

/-- Rows of the id-tagged events view come from the underlying rows. -/
theorem snd_mem_of_withSongplayIdFrom :
    ∀ (i : Nat) (rows : List (LogRecord × ℚ)) (q : Nat × LogRecord × ℚ),
      q ∈ withSongplayIdFrom i rows → (q.2.1, q.2.2) ∈ rows := by
  intro i rows
  induction rows generalizing i with
  | nil => intro q h; simp [withSongplayIdFrom] at h
  | cons p ps ih =>
    intro q h
    simp only [withSongplayIdFrom, List.mem_cons] at h
    rcases h with rfl | h'
    · exact List.mem_cons_self _ _
    · exact List.mem_cons_of_mem _ (ih (i + 1) q h')

/-- The cross-join-and-project agrees for predicates that agree on every
row of the events view. -/
theorem joinRows_congr (p q : LogRecord → SongRecord → Bool)
    (catalog : List SongRecord) :
    ∀ view : List (Nat × LogRecord × ℚ),
      (∀ x ∈ view, ∀ s, p x.2.1 s = q x.2.1 s) →
      joinRows p catalog view = joinRows q catalog view := by
  intro view
  induction view with
  | nil => intro _; rfl
  | cons a l ih =>
    intro h
    simp only [joinRows]
    rw [filter_ext_mem _ _ catalog fun s _ => h a (List.mem_cons_self a l) s,
      ih fun x hx => h x (List.mem_cons_of_mem _ hx)]

/-- Every row of the filtered dataframe has `page = "NextSong"` and comes
from the input. -/
theorem mem_filterNextSong (events : List LogRecord) (r : LogRecord)
    (h : r ∈ filterNextSong events) : r ∈ events ∧ r.page = "NextSong" := by
  have := List.mem_filter.mp h
  exact ⟨this.1, by simpa using this.2⟩

set_option maxRecDepth 100000 in
/-- C1. The songplays `SELECT` list at `src/etl.py:119-129` is not a valid
comma-separated list of `expr [as alias]` items: the comma after
`event.userAgent as user_agent` is missing, so that item carries six
tokens (`event.userAgent as user_agent year(event.start_time) as year`)
and `spark.sql` cannot parse the query; no songplays output is ever
produced. -/
theorem songplays_select_list_malformed :
    songplaysSelectItems.all isValidSelectItem = false ∧
    ["event.userAgent", "as", "user_agent", "year(event.start_time)", "as", "year"]
      ∈ songplaysSelectItems := by
  decide

/-- C2. For every filtered event row paired with its derived `start_time`,
the `start_time` is the row's millisecond-epoch `ts` divided by 1000,
read as seconds since the epoch, and the row is a `NextSong` row of the
input (`date_convert` is modelled from the spec, see its doc comment). -/
theorem start_time_is_ts_div_1000 (events : List LogRecord) (r : LogRecord)
    (t : ℚ) (h : (r, t) ∈ eventsWithTime events) :
    t * 1000 = (r.ts : ℚ) ∧ r ∈ events ∧ r.page = "NextSong" := by
  rcases List.mem_map.mp h with ⟨r', hr', heq⟩
  have h1 : r' = r := congrArg Prod.fst heq
  have h2 : date_convert r'.ts = t := congrArg Prod.snd heq
  subst h1
  have hmem := mem_filterNextSong events r' hr'
  refine ⟨?_, hmem.1, hmem.2⟩
  rw [← h2, date_convert, div_mul_cancel₀]
  norm_num

/-- C2 witness: the theorem instantiated at the concrete demo input. -/
theorem start_time_is_ts_div_1000_witness :
    date_convert demoNextSong.ts * 1000 = (demoNextSong.ts : ℚ) ∧
    demoNextSong ∈ demoEvents ∧ demoNextSong.page = "NextSong" :=
  start_time_is_ts_div_1000 demoEvents demoNextSong (date_convert demoNextSong.ts)
    (List.mem_cons_self _ _)

/-- C3. The `time` table built at `src/etl.py:96-103` applies `dayofweek`,
but the import list at `src/etl.py:5-6` does not bring `dayofweek` into
scope, so `process_log_data` raises a `NameError` there and the `time`
table is never written. -/
theorem dayofweek_not_imported :
    "dayofweek" ∈ timeColumnFunctions ∧ "dayofweek" ∉ pysparkFunctionImports := by
  decide

/-- C4. The catalog stage builds the glob
`<input_root>/song_data/*/*/*/*.json` as the claim states, but loads it
with `spark.read.load` — the generic loader, which uses the engine default
source format `parquet` rather than parsing JSON (contrast the event
stage, which uses `spark.read.json`). -/
theorem song_data_read_not_json :
    (songStageRead inputData).path = "s3a://udacity-dend/song_data/*/*/*/*.json" ∧
    (songStageRead inputData).method = ReadMethod.load ∧
    (songStageRead inputData).method ≠ ReadMethod.json ∧
    sparkDefaultSourceFormat = "parquet" ∧
    (logStageRead inputData).method = ReadMethod.json := by
  decide

/-- C5 counterexample: the catalog path re-read for the songplays join at
`src/etl.py:111` is not the catalog-stage glob of `src/etl.py:37` — the
claim that both reads use `<input_root>/song_data/*/*/*/*.json` is false. -/
theorem songplays_reread_glob_differs :
    (songplaysSongRead inputData).path ≠ (songStageRead inputData).path := by
  decide

/-- C5 amended: the songplays-stage catalog re-read is an independent
second read, via the JSON reader, of `<input_root>/song_data/*/*/*` — the
catalog-stage glob with the trailing `*.json` component dropped (it names
the directories that contain the catalog files rather than the files
themselves). -/
theorem songplays_reread_glob_amended :
    (songplaysSongRead inputData).path = "s3a://udacity-dend/song_data/*/*/*" ∧
    (songplaysSongRead inputData).method = ReadMethod.json ∧
    (songStageRead inputData).path
      = pathJoin (songplaysSongRead inputData).path "*.json" := by
  decide

/-- C6. For every event input, `users_table` has pairwise-distinct user
ids; every row traces, with `userId→user_id`, `firstName→first_name`,
`lastName→last_name` renamed and `gender`/`level` projected unchanged, to
some input row with `page = "NextSong"` (hence users appearing only in
non-NextSong rows are absent); and every `NextSong` row's user id is
present. -/
theorem users_table_unique_per_user (events : List LogRecord) :
    ((users_table events).map (fun u => u.user_id)).Nodup ∧
    (∀ u ∈ users_table events, ∃ r ∈ events, r.page = "NextSong" ∧
      r.userId = u.user_id ∧ r.firstName = u.first_name ∧
      r.lastName = u.last_name ∧ r.gender = u.gender ∧ r.level = u.level) ∧
    (∀ r ∈ events, r.page = "NextSong" →
      ∃ u ∈ users_table events, u.user_id = r.userId) := by
  refine ⟨?_, ?_, ?_⟩
  · rw [users_table, List.map_map]
    exact nodup_keys_dedupBy (fun s => s.userId)
      ((filterNextSong events).map usersSelect)
  · intro u hu
    rcases List.mem_map.mp hu with ⟨s, hs, rfl⟩
    have hs' := mem_of_mem_dedupBy _ _ _ hs
    rcases List.mem_map.mp hs' with ⟨r, hr, rfl⟩
    have hmem := mem_filterNextSong events r hr
    exact ⟨r, hmem.1, hmem.2, rfl, rfl, rfl, rfl, rfl⟩
  · intro r hr hpage
    have hf : r ∈ filterNextSong events := by
      simp [filterNextSong, List.mem_filter, hr, hpage]
    have hm : usersSelect r ∈ (filterNextSong events).map usersSelect :=
      List.mem_map_of_mem usersSelect hf
    have hk := key_mem_dedupBy (fun s => s.userId) _ _ hm
    rcases List.mem_map.mp hk with ⟨s, hs, hkey⟩
    exact ⟨usersRename s, List.mem_map_of_mem usersRename hs, hkey⟩

/-- C6 witness: the theorem instantiated at the concrete demo input. -/
theorem users_table_unique_per_user_witness :
    ∃ u ∈ users_table demoEvents, u.user_id = demoNextSong.userId :=
  (users_table_unique_per_user demoEvents).2.2 demoNextSong (by decide) (by decide)

/-- C7. For every catalog input, `songs_table` has pairwise-distinct song
ids; every row keeps all five projected fields unchanged from some input
record with that song id; every input song id is present; and the table is
written partitioned by `(year, artist_id)` in overwrite mode. -/
theorem songs_table_unique_per_song_id (df : List SongRecord) (output : String) :
    ((songs_table df).map (fun s => s.song_id)).Nodup ∧
    (∀ s ∈ songs_table df, ∃ r ∈ df, r.song_id = s.song_id ∧ r.title = s.title ∧
      r.artist_id = s.artist_id ∧ r.year = s.year ∧ r.duration = s.duration) ∧
    (∀ r ∈ df, ∃ s ∈ songs_table df, s.song_id = r.song_id) ∧
    (songs_write output df).rows = songs_table df ∧
    (songs_write output df).partitionCols = ["year", "artist_id"] ∧
    (songs_write output df).mode = "overwrite" ∧
    (songs_write output df).path = pathJoin output "songs" := by
  refine ⟨?_, ?_, ?_, rfl, rfl, rfl, rfl⟩
  · exact nodup_keys_dedupBy (fun s => s.song_id) (df.map songsSelect)
  · intro s hs
    have hs' := mem_of_mem_dedupBy _ _ _ hs
    rcases List.mem_map.mp hs' with ⟨r, hr, rfl⟩
    exact ⟨r, hr, rfl, rfl, rfl, rfl, rfl⟩
  · intro r hr
    have hm : songsSelect r ∈ df.map songsSelect :=
      List.mem_map_of_mem songsSelect hr
    have hk := key_mem_dedupBy (fun s => s.song_id) _ _ hm
    rcases List.mem_map.mp hk with ⟨s, hs, hkey⟩
    exact ⟨s, hs, hkey⟩

/-- C7 witness: the theorem instantiated at the concrete demo input. -/
theorem songs_table_unique_per_song_id_witness :
    ∃ s ∈ songs_table demoCatalog, s.song_id = demoSong.song_id :=
  (songs_table_unique_per_song_id demoCatalog outputData).2.2.1 demoSong (by decide)

/-- C8. For every catalog input, `artists_table` has pairwise-distinct
artist ids; every row's renamed fields (`artist_name→name`,
`artist_location→location`, `artist_latitude→latitude`,
`artist_longitude→longitude`) equal their source values from some input
record with that artist id; every input artist id is present; and the
table is written unpartitioned in overwrite mode. -/
theorem artists_table_unique_per_artist_id (df : List SongRecord) (output : String) :
    ((artists_table df).map (fun a => a.artist_id)).Nodup ∧
    (∀ a ∈ artists_table df, ∃ r ∈ df, r.artist_id = a.artist_id ∧
      r.artist_name = a.name ∧ r.artist_location = a.location ∧
      r.artist_latitude = a.latitude ∧ r.artist_longitude = a.longitude) ∧
    (∀ r ∈ df, ∃ a ∈ artists_table df, a.artist_id = r.artist_id) ∧
    (artists_write output df).rows = artists_table df ∧
    (artists_write output df).partitionCols = [] ∧
    (artists_write output df).mode = "overwrite" ∧
    (artists_write output df).path = pathJoin output "artists" := by
  refine ⟨?_, ?_, ?_, rfl, rfl, rfl, rfl⟩
  · rw [artists_table, List.map_map]
    exact nodup_keys_dedupBy (fun s => s.artist_id) (df.map artistsSelect)
  · intro a ha
    rcases List.mem_map.mp ha with ⟨s, hs, rfl⟩
    have hs' := mem_of_mem_dedupBy _ _ _ hs
    rcases List.mem_map.mp hs' with ⟨r, hr, rfl⟩
    exact ⟨r, hr, rfl, rfl, rfl, rfl, rfl⟩
  · intro r hr
    have hm : artistsSelect r ∈ df.map artistsSelect :=
      List.mem_map_of_mem artistsSelect hr
    have hk := key_mem_dedupBy (fun s => s.artist_id) _ _ hm
    rcases List.mem_map.mp hk with ⟨s, hs, hkey⟩
    exact ⟨artistsRename s, List.mem_map_of_mem artistsRename hs, hkey⟩

/-- C8 witness: the theorem instantiated at the concrete demo input. -/
theorem artists_table_unique_per_artist_id_witness :
    ∃ a ∈ artists_table demoCatalog, a.artist_id = demoSong.artist_id :=
  (artists_table_unique_per_artist_id demoCatalog outputData).2.2.1 demoSong
    (by decide)

/-- C9. For every event input with no `page = "NextSong"` row, the derived
`users`, `time` and `songplays` tables are empty, and the `songs` and
`artists` outputs equal the catalog-only derivations, i.e. they do not
depend on the event input. -/
theorem no_nextsong_empty_outputs (catalog : List SongRecord)
    (events : List LogRecord) (h : ∀ r ∈ events, r.page ≠ "NextSong") :
    (runPipeline catalog events).users = [] ∧
    (runPipeline catalog events).time = [] ∧
    (runPipeline catalog events).songplays = [] ∧
    (runPipeline catalog events).songs = songs_table catalog ∧
    (runPipeline catalog events).artists = artists_table catalog := by
  have hf : filterNextSong events = [] := by
    rw [filterNextSong, List.filter_eq_nil_iff]
    intro r hr
    simpa using h r hr
  refine ⟨?_, ?_, ?_, rfl, rfl⟩ <;>
    simp [runPipeline, users_table, time_table, songplays_table, eventsView,
      eventsWithTime, hf, dedupBy, dedupByAux, withSongplayIdFrom, joinRows]

/-- C9 witness: the theorem instantiated at the concrete demo input whose
only event row has `page = "Home"`. -/
theorem no_nextsong_empty_outputs_witness :
    (runPipeline demoCatalog [demoHome]).users = [] ∧
    (runPipeline demoCatalog [demoHome]).time = [] ∧
    (runPipeline demoCatalog [demoHome]).songplays = [] ∧
    (runPipeline demoCatalog [demoHome]).songs = songs_table demoCatalog ∧
    (runPipeline demoCatalog [demoHome]).artists = artists_table demoCatalog :=
  no_nextsong_empty_outputs demoCatalog [demoHome] (by decide)

/-- C10. Dropping the `event.page = 'NextSong'` conjunct from the songplays
`WHERE` clause changes nothing: the events view is built from the
dataframe already filtered to `page = "NextSong"`, so the join produces
exactly the same rows with or without the predicate, for every input. -/
theorem songplays_page_predicate_noop (catalog : List SongRecord)
    (events : List LogRecord) :
    songplays_table catalog events
      = joinRows songplaysWhereNoPage catalog (eventsView events) := by
  refine joinRows_congr songplaysWhere songplaysWhereNoPage catalog
    (eventsView events) ?_
  intro x hx s
  have hmem := snd_mem_of_withSongplayIdFrom 0 (eventsWithTime events) x hx
  rcases List.mem_map.mp hmem with ⟨r, hr, heq⟩
  have h1 : r = x.2.1 := congrArg Prod.fst heq
  have hpage : x.2.1.page = "NextSong" := by
    rw [← h1]; exact (mem_filterNextSong events r hr).2
  simp [songplaysWhere, songplaysWhereNoPage, hpage]

end Etl
